import Mathlib

/-!
# afs: SCP storager and tar manager

A shallow embedding of `scp/storager.go` and `tar/manager.go`.

Stateful Go closures (the visitors handed to `Walk`) become state-passing
functions; every call that leaves the process (opening a session, running a
remote command, a session download) is answered by a `Remote` record and is
written to an event log, so that "which session was opened with which
arguments" is a statement about the returned log.
-/

set_option autoImplicit false

namespace afs

/-! ## Shared data model -/

/-- Go `error` value (a nil error is `none : Option GoError`). -/
structure GoError where
  msg : String
  deriving DecidableEq, Repr

/-- Byte strings. -/
abbrev Bytes := List Nat

/-- The fields of `os.FileInfo` as built by `file.NewInfo(name, size, mode, modTime, isDir)`. -/
structure FileInfo where
  name : String
  size : Nat
  mode : Nat
  modTime : Nat
  isDir : Bool
  deriving DecidableEq, Repr

/-- An `io.Reader` seen from its consumer: the bytes it yields, then either
EOF (`err = none`) or a read error. -/
structure Reader where
  data : Bytes
  err : Option GoError
  deriving DecidableEq, Repr

/-- One visit of a walk: the three arguments the handler is called with. -/
structure Entry where
  relative : String
  info : FileInfo
  reader : Reader
  deriving DecidableEq, Repr

/-- A Go visitor `func(relative string, info os.FileInfo, reader io.Reader) (bool, error)`
closing over mutable variables of type `σ`: it maps the variables before the
call to the variables after it, the `shouldContinue` flag and the error. -/
abbrev Handler (σ : Type) := σ → Entry → σ × Bool × Option GoError

/-- `option.Matcher`: `func(parent string, info os.FileInfo) bool`. -/
abbrev Matcher := String → FileInfo → Bool

/-- Modelled from the spec: `option.GetMatcher` (package `option`, only
`modifier.go` of it is present). "A convenience GetMatcher substitutes a
pass-all Matcher when none was supplied." -/
def GetMatcher (matcher : Option Matcher) : Matcher :=
  match matcher with
  | some m => m
  | none => fun _ _ => true

/-- Modelled from the spec: the traversal contract of `Walk` (§4.2), which
`session.download` (scp/session.go) and the tar `storager.Walk`
(tar/storager.go) implement and which are not present. The entries are handed
to the visitor in order; a visitor error aborts the walk and is returned
unmodified; `shouldContinue = false` stops the walk without error; when the
entries are exhausted the walk returns the source's own outcome `tail`. -/
def feed {σ : Type} (h : Handler σ) : List Entry → Option GoError → σ → σ × Option GoError
  | [], tail, s => (s, tail)
  | e :: es, tail, s =>
    match h s e with
    | (s1, _, some err) => (s1, some err)
    | (s1, false, none) => (s1, none)
    | (s1, true, none) => feed h es tail s1

/-! ## Go standard library: `path.Clean`, `path.Split`, `strings.Contains` -/

/-- The `/`-separated elements of a path (`a//b` has the elements `a`, the
empty element and `b`). -/
def splitSlash : List Char → List (List Char)
  | [] => [[]]
  | c :: cs =>
    if c = '/' then [] :: splitSlash cs
    else
      match splitSlash cs with
      | [] => [[c]]
      | x :: xs => (c :: x) :: xs

/-- The elements joined by single slashes. -/
def joinSlash : List (List Char) → List Char
  | [] => []
  | [x] => x
  | x :: y :: rest => x ++ '/' :: joinSlash (y :: rest)

/-- One step of `path.Clean` over the stack of kept elements (top first):
empty and `.` elements vanish, `..` removes the last kept real element, is
dropped at the root and is kept otherwise. -/
def cleanStep (rooted : Bool) (stack : List (List Char)) (elem : List Char) : List (List Char) :=
  if elem = [] ∨ elem = ['.'] then stack
  else if elem = ['.', '.'] then
    match stack with
    | [] => if rooted then [] else [['.', '.']]
    | top :: rest => if top = ['.', '.'] then elem :: top :: rest else rest
  else elem :: stack

/-- Go `path.Clean`: the shortest path equivalent to `p` by purely lexical
processing (multiple slashes become one, `.` elements and inner `..` elements
with their parent are removed, `/..` at the root becomes `/`, and the empty
result is `.`). -/
def Clean (p : String) : String :=
  match p.data with
  | [] => "."
  | c :: cs =>
    let rooted : Bool := c = '/'
    let body := joinSlash ((splitSlash (c :: cs)).foldl (cleanStep rooted) []).reverse
    if rooted then String.mk ('/' :: body)
    else if body = [] then "." else String.mk body

/-- Index just past the last `/` of a character list (0 when there is none). -/
def lastSlashEnd : List Char → Nat
  | [] => 0
  | c :: cs =>
    let r := lastSlashEnd cs
    if r ≠ 0 then r + 1 else if c = '/' then 1 else 0

/-- Go `path.Split`: splits immediately after the final slash. -/
def pathSplit (p : String) : String × String :=
  let i := lastSlashEnd p.data
  (String.mk (p.data.take i), String.mk (p.data.drop i))

/-- Go `strings.Contains(s, ":")`. -/
def containsColon (s : String) : Bool := s.data.contains ':'

/-! ## Package `option`: `Page` -/

/-- The three methods of `option.Page` that `storager.List` calls, over an
arbitrary representation `P` of the cursor. `zero` is the value of
`&option.Page{}`, which `List` starts from when no page option is supplied. -/
structure PageOps (P : Type) where
  zero : P
  Increment : P → P
  ShallSkip : P → Bool
  HasReachedLimit : P → Bool

/-- Modelled from the spec: `option.Page` (option/page.go is not present),
"mutable cursor {offset counter, limit, current count}". -/
structure Page where
  offset : Nat
  limit : Nat
  counter : Nat
  deriving DecidableEq, Repr

/-- Modelled from the spec: `Page.Increment`, "incremented once per candidate
entry". -/
def Page.Increment (p : Page) : Page := { p with counter := p.counter + 1 }

/-- Modelled from the spec: `Page.ShallSkip`, "decides skip (still before
offset)": the current entry is among the first `offset` counted ones. -/
def Page.ShallSkip (p : Page) : Bool := decide (p.counter ≤ p.offset)

/-- Modelled from the spec: `Page.HasReachedLimit`, "limit reached (stop
traversal)": `limit` entries past the offset have been counted (§8 P2: a page
holds `min(limit, total - offset)` entries). Limit 0, the zero value that
`List` starts from when no page option is given, sets no bound (§8 P1: the
unpaged listing is the whole walk). -/
def Page.HasReachedLimit (p : Page) : Bool :=
  decide (p.limit ≠ 0) && decide (p.offset + p.limit ≤ p.counter)

/-- The spec-modelled `option.Page` as an instance of the method table. -/
def Page.ops : PageOps Page where
  zero := { offset := 0, limit := 0, counter := 0 }
  Increment := Page.Increment
  ShallSkip := Page.ShallSkip
  HasReachedLimit := Page.HasReachedLimit

/-- `option.NewPage(offset, limit)` / the literal `Page{offset, limit}`. -/
def NewPage (offset limit : Nat) : Page := { offset := offset, limit := limit, counter := 0 }

/-! ## Package `scp`: `storager` -/

namespace scp

/-- The session modes of `newSession`. -/
inductive SessionMode where
  | modeRead
  | modeWrite
  deriving DecidableEq, Repr

/-- The answers of the remote side, as seen through `*ssh.Client` and the
package's `session` (scp/session.go, not present). Every field is the outcome
of one kind of call; `download recursive location` is the sequence of entries
`session.download` hands to its visitor for these arguments, and the error it
returns once they are exhausted. The boolean is the second argument of
`session.download` as the callers pass it; how the answer depends on it is
left to the remote. -/
structure Remote where
  shellSession : Option GoError
  output : String → Option GoError
  newSession : SessionMode → Nat → Option GoError
  download : Bool → String → List Entry × Option GoError
  uploadOpen : String → Option GoError
  uploadWrite : String → String → FileInfo → Bytes → Option GoError

/-- What an operation did on the connection, in order. -/
inductive Event where
  | dial (address : String)
  | shellSession
  | output (cmd : String)
  | newSession (mode : SessionMode) (timeout : Nat)
  | download (recursive : Bool) (location : String)
  | uploadOpen (destination : String)
  | uploadWrite (relative : String) (info : FileInfo) (content : Bytes)
  | close
  deriving DecidableEq, Repr

/-- The event log of an operation. -/
abbrev Log := List Event

/-- The `[]os.FileInfo` slice. -/
abbrev FileInfos := List FileInfo

/-- The `storager` struct after a successful `connect`: `Client` is the
connection the methods open their sessions on. -/
structure storager where
  address : String
  Client : Remote
  timeout : Nat

/-- Modelled from the spec: `session.download(ctx, recursive, location, handler)`
(scp/session.go is not present), a read-mode session that "streams back
(path, metadata, content) tuples as they arrive, invoking the visitor
incrementally", under the traversal contract `feed`. -/
def sessionDownload {σ : Type} (c : Remote) (recursive : Bool) (location : String)
    (handler : Handler σ) (s0 : σ) : σ × Option GoError :=
  feed handler (c.download recursive location).1 (c.download recursive location).2 s0

/-- Embedding of `storager.Delete`. -/
def storager.Delete (s : storager) (location : String) : Option GoError × Log :=
  match s.Client.shellSession with
  | none =>
    (s.Client.output ("rm -rf " ++ location), [Event.shellSession, Event.output ("rm -rf " ++ location)])
  | some err => (some err, [Event.shellSession])

/-- Embedding of `storager.Exists`. The visitor sets `has` and stops; the
error of `session.download` is assigned to `_`. -/
def storager.Exists (s : storager) (location : String) : (Bool × Option GoError) × Log :=
  match s.Client.newSession SessionMode.modeRead s.timeout with
  | some err => ((false, some err), [Event.newSession SessionMode.modeRead s.timeout])
  | none =>
    let location := Clean location
    let has := false
    let out := sessionDownload s.Client false location (fun _ _ => (true, false, none)) has
    ((out.1, none),
      [Event.newSession SessionMode.modeRead s.timeout, Event.download false location])

/-- Embedding of `storager.Walk`. -/
def storager.Walk {σ : Type} (s : storager) (location : String) (handler : Handler σ) (s0 : σ) :
    (σ × Option GoError) × Log :=
  match s.Client.newSession SessionMode.modeRead s.timeout with
  | some err => ((s0, some err), [Event.newSession SessionMode.modeRead s.timeout])
  | none =>
    let location := Clean location
    (sessionDownload s.Client true location handler s0,
      [Event.newSession SessionMode.modeRead s.timeout, Event.download true location])

/-- The closure `storager.List` hands to `Walk`; its variables are `page` and
`result`. -/
def listVisitor {P : Type} (ops : PageOps P) (matcher : Matcher) : Handler (P × FileInfos) :=
  fun st e =>
    if !matcher e.relative e.info then (st, true, none)
    else
      let page := ops.Increment st.1
      if ops.ShallSkip page then ((page, st.2), true, none)
      else ((page, st.2 ++ [e.info]), !ops.HasReachedLimit page, none)

/-- Embedding of `storager.List`. `page` and `matcher` are what `option.Assign`
finds among the options (`none` when the option is absent). -/
def storager.List {P : Type} (s : storager) (ops : PageOps P) (location : String)
    (page : Option P) (matcher : Option Matcher) : (FileInfos × Option GoError) × Log :=
  let page := page.getD ops.zero
  let matcher := GetMatcher matcher
  let result : FileInfos := []
  let out := s.Walk location (listVisitor ops matcher) (page, result)
  ((out.1.1.2, out.1.2), out.2)

/-- Embedding of `storager.Download`. `io.Copy(result, reader)` appends what
the reader yields to the buffer and returns the reader's error. -/
def storager.Download (s : storager) (location : String) : (Bytes × Option GoError) × Log :=
  let result : Bytes := []
  let out := s.Walk location (fun result e => (result ++ e.reader.data, false, e.reader.err)) result
  ((out.1.1, out.1.2), out.2)

/-- Embedding of `storager.Uploader`: the error it returns and what it did. -/
def storager.Uploader (s : storager) (destination : String) : Option GoError × Log :=
  match s.Client.newSession SessionMode.modeWrite 0 with
  | some err => (some err, [Event.newSession SessionMode.modeWrite 0])
  | none =>
    (s.Client.uploadOpen destination,
      [Event.newSession SessionMode.modeWrite 0, Event.uploadOpen destination])

/-- Embedding of `storager.Create`; `now` is `time.Now()`. -/
def storager.Create (s : storager) (destination : String) (mode : Nat) (content : Bytes)
    (isDir : Bool) (now : Nat) : Option GoError × Log :=
  let parent := (pathSplit destination).1
  let name := (pathSplit destination).2
  let mkdir : Bool × Log :=
    if isDir then
      match s.Client.shellSession with
      | none =>
        match s.Client.output ("mkdir -p " ++ destination) with
        | none => (true, [Event.shellSession, Event.output ("mkdir -p " ++ destination)])
        | some _ => (false, [Event.shellSession, Event.output ("mkdir -p " ++ destination)])
      | some _ => (false, [Event.shellSession])
    else (false, [])
  if mkdir.1 then (none, mkdir.2)
  else
    match s.Uploader parent with
    | (some err, log) => (some err, mkdir.2 ++ log)
    | (none, log) =>
      let info : FileInfo :=
        { name := name, size := content.length, mode := mode, modTime := now, isDir := isDir }
      (s.Client.uploadWrite parent "" info content,
        mkdir.2 ++ log ++ [Event.uploadWrite "" info content, Event.close])

/-- Embedding of `storager.Upload`. -/
def storager.Upload (s : storager) (destination : String) (mode : Nat) (content : Bytes)
    (now : Nat) : Option GoError × Log :=
  s.Create destination mode content false now

/-- Modelled from the spec: the constant `DefaultPort` (declared outside
storager.go), "the protocol's standard port", 22 for SSH/SCP. -/
def DefaultPort : Nat := 22

/-- Embedding of `NewStorager` with `connect`: `ssh.Dial("tcp", address, config)`
is answered by `dial`. The result is the connected storager or the wrapped
dial error, and the log holds the address that was dialled. -/
def NewStorager (dial : String → Except GoError Remote) (address : String) (timeout : Nat) :
    Except GoError storager × Log :=
  let address := if !containsColon address then address ++ (":" ++ toString DefaultPort) else address
  match dial address with
  | Except.error err =>
    (Except.error ⟨"failed to dial " ++ address ++ ": " ++ err.msg⟩, [Event.dial address])
  | Except.ok client =>
    (Except.ok { address := address, Client := client, timeout := timeout }, [Event.dial address])

end scp

/-! ## Package `tar`: `manager` -/

namespace tar

/-- `storage.OnVisit`: the caller's visitor
`func(ctx, baseURL, parent string, info os.FileInfo, reader io.ReadCloser) (bool, error)`
over its mutable variables `σ`; the entry carries `parent`, `info`, `reader`. -/
abbrev OnVisit (σ : Type) := σ → String → Entry → σ × Bool × Option GoError

/-- A `storage.Storager` interface value as `manager.Walk` can tell them
apart: the package's own `*storager` (with the entries its `Walk` produces for
an archive path and the outcome once they are exhausted), or a value of any
other dynamic type, named as `%T` prints it (`<nil>` for the nil interface). -/
inductive Resolved where
  | tarStorager (archive : String → List Entry × Option GoError)
  | foreign (typeName : String) (content : String → List Entry × Option GoError)

/-- The `manager` struct: the embedded `*base.Manager` is present through its
`Storager(ctx, baseURL, options...)` lookup (base/manager.go is not present).
The options left once the matcher is taken out are passed on unchanged and are
part of how the lookup answers. -/
structure manager where
  Storager : String → Except GoError Resolved

/-- What `manager.Walk` did: the backend lookup and the backend's `Walk`. -/
inductive Event where
  | storager (baseURL : String)
  | walk (URLPath : String)
  deriving DecidableEq, Repr

/-- The closure `manager.Walk` hands to the backend's `Walk`. -/
def walkVisitor {σ : Type} (matcher : Matcher) (baseURL : String) (handler : OnVisit σ) :
    Handler σ :=
  fun s e =>
    if !matcher e.relative e.info then (s, true, none)
    else handler s baseURL e

/-- Embedding of `manager.Walk`. `Base` is `url.Base(·, Scheme)` (package `url`,
not present), `matcher` is what `option.Assign` finds among the options. -/
def manager.Walk {σ : Type} (m : manager) (Base : String → String × String) (URL : String)
    (handler : OnVisit σ) (matcher : Option Matcher) (s0 : σ) :
    (σ × Option GoError) × List Event :=
  let baseURL := (Base URL).1
  let URLPath := (Base URL).2
  let matcher := GetMatcher matcher
  match m.Storager baseURL with
  | Except.error err => ((s0, some err), [Event.storager baseURL])
  | Except.ok (Resolved.foreign typeName _) =>
    ((s0, some ⟨"unsupported storager type: expected: *tar.storager, but had " ++ typeName⟩),
      [Event.storager baseURL])
  | Except.ok (Resolved.tarStorager archive) =>
    (feed (walkVisitor matcher baseURL handler) (archive URLPath).1 (archive URLPath).2 s0,
      [Event.storager baseURL, Event.walk URLPath])

/-- A visitor that also keeps the list of entries it was invoked on. -/
def record {σ : Type} (handler : OnVisit σ) : OnVisit (List Entry × σ) :=
  fun st baseURL e =>
    ((st.1 ++ [e], (handler st.2 baseURL e).1), (handler st.2 baseURL e).2)

/-- The walk in the specification's words: the visitor is invoked on the
accepted entries in order, up to and including the first one at which it
returns an error (the walk returns that error) or `shouldContinue = false`
(the walk returns no error); if it never stops, the walk ends with the
archive's own outcome. The result is (entries visited, visitor variables,
error). -/
def specWalk {σ : Type} (visitor : Handler σ) :
    List Entry → Option GoError → σ → List Entry × σ × Option GoError
  | [], tail, s => ([], s, tail)
  | e :: es, tail, s =>
    match visitor s e with
    | (s1, _, some err) => ([e], s1, some err)
    | (s1, false, none) => ([e], s1, none)
    | (s1, true, none) => (e :: (specWalk visitor es tail s1).1, (specWalk visitor es tail s1).2)

end tar

/-! ## Concrete remotes used by the closed statements -/

namespace scp

/-- A regular file entry with the given name and content. -/
def fileEntry (name : String) (data : Bytes) : Entry :=
  { relative := "",
    info := { name := name, size := data.length, mode := 420, modTime := 0, isDir := false },
    reader := { data := data, err := none } }

/-- A remote on which every call succeeds and every download delivers `entries`. -/
def remoteServing (entries : List Entry) : Remote :=
  { shellSession := none
    output := fun _ => none
    newSession := fun _ _ => none
    download := fun _ _ => (entries, none)
    uploadOpen := fun _ => none
    uploadWrite := fun _ _ _ _ => none }

/-- A remote on which every remote command fails and everything else succeeds. -/
def remoteCommandFails : Remote :=
  { shellSession := none
    output := fun _ => some ⟨"Process exited with status 1"⟩
    newSession := fun _ _ => none
    download := fun _ _ => ([], none)
    uploadOpen := fun _ => none
    uploadWrite := fun _ _ _ _ => none }

/-- A remote whose sessions open and whose downloads fail in transit before
any entry is delivered. -/
def remoteDownloadFails : Remote :=
  { shellSession := none
    output := fun _ => none
    newSession := fun _ _ => none
    download := fun _ _ => ([], some ⟨"connection lost"⟩)
    uploadOpen := fun _ => none
    uploadWrite := fun _ _ _ _ => none }

/-- The visitor that returns `shouldContinue = false` on its first invocation;
its variable counts the invocations. -/
def stopAtFirst : Handler Nat := fun n _ => (n + 1, false, none)

/-- A storager connected to `c`. -/
def connected (c : Remote) : storager := { address := "host:22", Client := c, timeout := 5 }

end scp

namespace tar

/-- Two archive entries, `a.txt` and `b/c.txt`. -/
def sampleArchive : List Entry :=
  [{ relative := "", info := { name := "a.txt", size := 1, mode := 420, modTime := 0, isDir := false },
     reader := { data := [97], err := none } },
   { relative := "b", info := { name := "c.txt", size := 1, mode := 420, modTime := 0, isDir := false },
     reader := { data := [99], err := none } }]

/-- A manager whose lookup always resolves to the package's own storager over
`sampleArchive`. -/
def managerOverArchive : manager :=
  { Storager := fun _ => Except.ok (Resolved.tarStorager (fun _ => (sampleArchive, none))) }

/-- A manager whose lookup resolves to a storager of another package that
would deliver `sampleArchive` if it were walked. -/
def managerOverForeign : manager :=
  { Storager := fun _ => Except.ok (Resolved.foreign "*scp.storager" (fun _ => (sampleArchive, none))) }

/-- A stand-in for `url.Base`: the part before `!` is the base URL and the rest
the archive path; here every URL is taken as `file:///archive.tar` with the
given string as archive path. -/
def sampleBase : String → String × String := fun URL => ("file:///archive.tar", URL)

/-- A caller's visitor that counts its invocations and always continues. -/
def countAll : OnVisit Nat := fun n _ _ => (n + 1, true, none)

end tar

/-! ## Theorems -/

namespace scp

/-- Entries the matcher rejects leave the variables of the `List` closure
untouched: walking `l` with matcher `m` is walking the accepted entries with
the pass-all matcher. -/
theorem feed_listVisitor_filter {P : Type} (ops : PageOps P) (m : Matcher) (tail : Option GoError)
    (l : List Entry) (st : P × FileInfos) :
    feed (listVisitor ops m) l tail st
      = feed (listVisitor ops (fun _ _ => true)) (l.filter (fun e => m e.relative e.info)) tail st := by
  induction l generalizing st with
  | nil => rfl
  | cons e es ih =>
    by_cases hm : m e.relative e.info = true
    · have hf : (e :: es).filter (fun e => m e.relative e.info)
          = e :: es.filter (fun e => m e.relative e.info) := by simp [List.filter, hm]
      rw [hf]
      have hstep : listVisitor ops m st e = listVisitor ops (fun _ _ => true) st e := by
        simp [listVisitor, hm]
      simp only [feed, hstep]
      rcases listVisitor ops (fun _ _ => true) st e with ⟨s1, c, err⟩
      cases err <;> cases c <;> simp [ih]
    · have hf : (e :: es).filter (fun e => m e.relative e.info)
          = es.filter (fun e => m e.relative e.info) := by simp [List.filter, hm]
      rw [hf]
      have hstep : listVisitor ops m st e = (st, true, none) := by
        simp [listVisitor, hm]
      simp only [feed, hstep]
      exact ih st

/-- The `List` closure never shortens `result`. -/
theorem feed_listVisitor_grows {P : Type} (ops : PageOps P) (tail : Option GoError)
    (l : List Entry) (p : P) (acc : FileInfos) :
    acc.length ≤ (feed (listVisitor ops (fun _ _ => true)) l tail (p, acc)).1.2.length := by
  induction l generalizing p acc with
  | nil => simp [feed]
  | cons e es ih =>
    by_cases hs : ops.ShallSkip (ops.Increment p) = true
    · simpa [feed, listVisitor, hs] using ih (ops.Increment p) acc
    · by_cases hr : ops.HasReachedLimit (ops.Increment p) = true
      · simp [feed, listVisitor, hs, hr]
      · have h := ih (ops.Increment p) (acc ++ [e.info])
        simp only [List.length_append, List.length_singleton] at h
        simp [feed, listVisitor, hs, hr]
        omega

/-- With the pass-all matcher the size of the listing depends only on how many
entries are walked, and walking more entries never lists fewer. -/
theorem feed_listVisitor_mono {P : Type} (ops : PageOps P) (tail tail2 : Option GoError)
    (l l2 : List Entry) (p : P) (acc acc2 : FileInfos)
    (hl : l.length ≤ l2.length) (hacc : acc.length ≤ acc2.length) :
    (feed (listVisitor ops (fun _ _ => true)) l tail (p, acc)).1.2.length
      ≤ (feed (listVisitor ops (fun _ _ => true)) l2 tail2 (p, acc2)).1.2.length := by
  induction l generalizing l2 p acc acc2 with
  | nil =>
    have h := feed_listVisitor_grows ops tail2 l2 p acc2
    simp only [feed]
    omega
  | cons e es ih =>
    cases l2 with
    | nil => simp at hl
    | cons e2 es2 =>
      have hl2 : es.length ≤ es2.length := by simpa using hl
      by_cases hs : ops.ShallSkip (ops.Increment p) = true
      · simpa [feed, listVisitor, hs] using ih es2 (ops.Increment p) acc acc2 hl2 hacc
      · by_cases hr : ops.HasReachedLimit (ops.Increment p) = true
        · simpa [feed, listVisitor, hs, hr] using hacc
        · have h := ih es2 (ops.Increment p) (acc ++ [e.info]) (acc2 ++ [e2.info]) hl2
            (by simpa using hacc)
          simpa [feed, listVisitor, hs, hr] using h

/-- Past the offset and below the bound, the `List` closure collects the next
entries until `offset + limit` have been counted. -/
theorem feed_page_taking (offset limit : Nat) (tail : Option GoError) (l : List Entry)
    (c : Nat) (acc : FileInfos) (hc : offset ≤ c) (hlim : c < offset + limit) :
    (feed (listVisitor Page.ops (fun _ _ => true)) l tail
        ({ offset := offset, limit := limit, counter := c }, acc)).1.2
      = acc ++ (l.map Entry.info).take (offset + limit - c) := by
  induction l generalizing c acc with
  | nil => simp [feed]
  | cons e es ih =>
    have hskip : ¬ (c + 1 ≤ offset) := by omega
    have hlim0 : limit ≠ 0 := by omega
    obtain ⟨k, hk⟩ : ∃ k, offset + limit - c = k + 1 := ⟨offset + limit - c - 1, by omega⟩
    by_cases hr : offset + limit ≤ c + 1
    · have hk0 : k = 0 := by omega
      subst hk0
      simp [feed, listVisitor, Page.ops, Page.Increment, Page.ShallSkip, Page.HasReachedLimit,
        hskip, hlim0, hr, hk]
    · have h := ih (c + 1) (acc ++ [e.info]) (by omega) (by omega)
      have hk2 : offset + limit - (c + 1) = k := by omega
      rw [hk2] at h
      simp [feed, listVisitor, Page.ops, Page.Increment, Page.ShallSkip, Page.HasReachedLimit,
        hskip, hr, hk]
      simpa [Page.ops, Page.Increment] using h

/-- Before the offset the `List` closure skips, then it collects `limit` entries. -/
theorem feed_page_skipping (offset limit : Nat) (hlimit : 0 < limit) (tail : Option GoError)
    (l : List Entry) (c : Nat) (acc : FileInfos) (hc : c ≤ offset) :
    (feed (listVisitor Page.ops (fun _ _ => true)) l tail
        ({ offset := offset, limit := limit, counter := c }, acc)).1.2
      = acc ++ ((l.map Entry.info).drop (offset - c)).take limit := by
  induction l generalizing c with
  | nil => simp [feed]
  | cons e es ih =>
    by_cases hs : c + 1 ≤ offset
    · have h := ih (c + 1) hs
      obtain ⟨k, hk⟩ : ∃ k, offset - c = k + 1 := ⟨offset - c - 1, by omega⟩
      have hk2 : offset - (c + 1) = k := by omega
      rw [hk2] at h
      simp [feed, listVisitor, Page.ops, Page.Increment, Page.ShallSkip, hs, hk]
      simpa [Page.ops, Page.Increment] using h
    · have hceq : c = offset := by omega
      subst hceq
      have h := feed_page_taking c limit tail (e :: es) c acc (le_refl _) (by omega)
      simpa using h

/-- C1 (as amended): when the read session opens and `Walk` delivers `entries`
for the location, `List` with `Page{offset, limit}`, `1 ≤ limit`,
`offset ≤ limit` and no matcher returns the contiguous slice of the delivered
sequence that starts at index `offset`; its length is
`min(limit, total - offset)`, and it is empty when `offset ≥ total`. -/
theorem list_page_is_slice (s : storager) (location : String) (entries : List Entry)
    (offset limit : Nat) (hlimit : 1 ≤ limit) (_hol : offset ≤ limit)
    (hsession : s.Client.newSession SessionMode.modeRead s.timeout = none)
    (hwalk : (s.Client.download true (Clean location)).1 = entries) :
    (s.List Page.ops location (some (NewPage offset limit)) none).1.1
        = ((entries.map Entry.info).drop offset).take limit
      ∧ (s.List Page.ops location (some (NewPage offset limit)) none).1.1.length
        = min limit (entries.length - offset)
      ∧ (entries.length ≤ offset →
          (s.List Page.ops location (some (NewPage offset limit)) none).1.1 = []) := by
  have hres : (s.List Page.ops location (some (NewPage offset limit)) none).1.1
      = ((entries.map Entry.info).drop offset).take limit := by
    have h := feed_page_skipping offset limit hlimit (s.Client.download true (Clean location)).2
      entries 0 [] (Nat.zero_le _)
    simp only [storager.List, storager.Walk, hsession, sessionDownload, hwalk, GetMatcher,
      Option.getD, NewPage]
    simpa using h
  refine ⟨hres, ?_, ?_⟩
  · rw [hres]; simp
  · intro hle
    rw [hres]
    simp [List.drop_eq_nil_of_le, hle]

/-- Witness for C1: three delivered entries, `Page{1, 2}`. -/
theorem list_page_is_slice_witness :
    (1 ≤ 2 ∧ 1 ≤ 2)
      ∧ (connected (remoteServing [fileEntry "a" [1], fileEntry "b" [2], fileEntry "c" [3]])).Client.newSession
          SessionMode.modeRead 5 = none
      ∧ ((connected (remoteServing [fileEntry "a" [1], fileEntry "b" [2], fileEntry "c" [3]])).Client.download
          true (Clean "/data")).1 = [fileEntry "a" [1], fileEntry "b" [2], fileEntry "c" [3]]
      ∧ ((connected (remoteServing [fileEntry "a" [1], fileEntry "b" [2], fileEntry "c" [3]])).List
          Page.ops "/data" (some (NewPage 1 2)) none).1.1
        = [(fileEntry "b" [2]).info, (fileEntry "c" [3]).info]
      ∧ ((connected (remoteServing [fileEntry "a" [1], fileEntry "b" [2], fileEntry "c" [3]])).List
          Page.ops "/data" (some (NewPage 1 2)) none).1.1.length = min 2 (3 - 1) :=
  ⟨⟨by decide, by decide⟩, rfl, rfl,
    (list_page_is_slice (connected (remoteServing [fileEntry "a" [1], fileEntry "b" [2], fileEntry "c" [3]]))
      "/data" [fileEntry "a" [1], fileEntry "b" [2], fileEntry "c" [3]] 1 2 (by decide) (by decide)
      rfl rfl).1,
    (list_page_is_slice (connected (remoteServing [fileEntry "a" [1], fileEntry "b" [2], fileEntry "c" [3]]))
      "/data" [fileEntry "a" [1], fileEntry "b" [2], fileEntry "c" [3]] 1 2 (by decide) (by decide)
      rfl rfl).2.1⟩

/-- C1 (as stated) fails at `Page{0, 0}`: with one delivered entry the claim
asks for a slice of length `min(0, 1 - 0) = 0`, and `List` returns that entry. -/
theorem list_page_zero_limit_counterexample :
    (0 ≤ 0 ∧ 0 ≤ 0)
      ∧ ((connected (remoteServing [fileEntry "a" [1]])).List Page.ops "/data"
          (some (NewPage 0 0)) none).1 = ([(fileEntry "a" [1]).info], none)
      ∧ ((connected (remoteServing [fileEntry "a" [1]])).List Page.ops "/data"
          (some (NewPage 0 0)) none).1.1.length ≠ min 0 ([fileEntry "a" [1]].length - 0) := by
  refine ⟨⟨le_refl _, le_refl _⟩, ?_, ?_⟩
  · rfl
  · decide

/-- C2: with the same remote, location and page, a matcher that accepts a
subset of what another accepts never makes `List` return more entries. -/
theorem list_matcher_monotone {P : Type} (ops : PageOps P) (s : storager) (location : String)
    (page : Option P) (m1 m2 : Matcher)
    (hsub : ∀ rel info, m2 rel info = true → m1 rel info = true) :
    (s.List ops location page (some m2)).1.1.length
      ≤ (s.List ops location page (some m1)).1.1.length := by
  simp only [storager.List, storager.Walk, GetMatcher]
  cases hsession : s.Client.newSession SessionMode.modeRead s.timeout with
  | some err => simp
  | none =>
    simp only [sessionDownload]
    rw [feed_listVisitor_filter ops m2, feed_listVisitor_filter ops m1]
    apply feed_listVisitor_mono
    · apply List.Sublist.length_le
      apply List.monotone_filter_right
      intro e he
      exact hsub _ _ he
    · exact le_refl _

/-- Witness for C2: the directories-only matcher against the pass-all matcher. -/
theorem list_matcher_monotone_witness :
    (∀ rel info, (fun (_ : String) (i : FileInfo) => i.isDir) rel info = true →
        (fun (_ : String) (_ : FileInfo) => true) rel info = true)
      ∧ ((connected (remoteServing [fileEntry "a" [1], fileEntry "b" [2]])).List Page.ops "/data"
          (some (NewPage 0 1)) (some (fun _ i => i.isDir))).1.1.length
        ≤ ((connected (remoteServing [fileEntry "a" [1], fileEntry "b" [2]])).List Page.ops "/data"
          (some (NewPage 0 1)) (some (fun _ _ => true))).1.1.length :=
  ⟨fun _ _ _ => rfl,
    list_matcher_monotone Page.ops (connected (remoteServing [fileEntry "a" [1], fileEntry "b" [2]]))
      "/data" (some (NewPage 0 1)) (fun _ _ => true) (fun _ i => i.isDir) (fun _ _ _ => rfl)⟩

/-- C3 (as stated) fails in its second half: at the same location `Exists` and
`Walk` do not call `session.download` with the same arguments. `Exists` passes
`false` and `Walk` passes `true` as the boolean, so the download `Walk` makes
is not the one `Exists` makes. -/
theorem exists_walk_download_arguments_counterexample :
    ((connected (remoteServing [fileEntry "a" [1]])).Exists "/data").2
        = [Event.newSession SessionMode.modeRead 5, Event.download false "/data"]
      ∧ ((connected (remoteServing [fileEntry "a" [1]])).Walk "/data" stopAtFirst 0).2
        = [Event.newSession SessionMode.modeRead 5, Event.download true "/data"]
      ∧ Event.download true "/data"
          ∉ ((connected (remoteServing [fileEntry "a" [1]])).Exists "/data").2
      ∧ Event.download false "/data"
          ∉ ((connected (remoteServing [fileEntry "a" [1]])).Walk "/data" stopAtFirst 0).2 := by
  refine ⟨by rfl, by rfl, by decide, by decide⟩

/-- C3 (as amended): `Exists` returns true iff the read session opens and
`session.download` called with `false` on the cleaned location delivers at
least one entry; `Walk` with the stop-at-first visitor invokes it at least
once iff the read session opens and `session.download` called with `true` on
the cleaned location delivers at least one entry; the two calls share the
session mode and the cleaned location and differ in the boolean. -/
theorem exists_and_walk_downloads (s : storager) (location : String) :
    ((s.Exists location).1.1 = true
        ↔ (s.Client.newSession SessionMode.modeRead s.timeout = none
            ∧ (s.Client.download false (Clean location)).1 ≠ []))
      ∧ (1 ≤ (s.Walk location stopAtFirst 0).1.1
        ↔ (s.Client.newSession SessionMode.modeRead s.timeout = none
            ∧ (s.Client.download true (Clean location)).1 ≠ []))
      ∧ ((s.Client.newSession SessionMode.modeRead s.timeout ≠ none
            ∧ (s.Exists location).2 = [Event.newSession SessionMode.modeRead s.timeout]
            ∧ (s.Walk location stopAtFirst 0).2 = [Event.newSession SessionMode.modeRead s.timeout])
          ∨ (s.Client.newSession SessionMode.modeRead s.timeout = none
            ∧ (s.Exists location).2
                = [Event.newSession SessionMode.modeRead s.timeout,
                    Event.download false (Clean location)]
            ∧ (s.Walk location stopAtFirst 0).2
                = [Event.newSession SessionMode.modeRead s.timeout,
                    Event.download true (Clean location)])) := by
  cases hsession : s.Client.newSession SessionMode.modeRead s.timeout with
  | some err => simp [storager.Exists, storager.Walk, hsession]
  | none =>
    refine ⟨?_, ?_, Or.inr ⟨rfl, ?_, ?_⟩⟩
    · simp only [storager.Exists, hsession, sessionDownload]
      cases hf : (s.Client.download false (Clean location)).1 with
      | nil => simp [feed]
      | cons e es => simp [feed]
    · simp only [storager.Walk, hsession, sessionDownload]
      cases ht : (s.Client.download true (Clean location)).1 with
      | nil => simp [feed]
      | cons e es => simp [feed, stopAtFirst]
    · simp [storager.Exists, hsession]
    · simp [storager.Walk, hsession]

/-- C4: when the read session opens, `Download` returns exactly the bytes of
the first entry the walk delivers (with that entry's read error, if any) and
nothing of any later entry; when the walk delivers no entry, `Download`
returns the empty stream together with the walk's own error, which is nil
when the walk returned no error. -/
theorem download_first_entry_only (s : storager) (location : String) (entries : List Entry)
    (tail : Option GoError)
    (hsession : s.Client.newSession SessionMode.modeRead s.timeout = none)
    (hwalk : s.Client.download true (Clean location) = (entries, tail)) :
    (s.Download location).1
      = (match entries with
        | [] => ([], tail)
        | e :: _ => (e.reader.data, e.reader.err)) := by
  cases entries with
  | nil => simp [storager.Download, storager.Walk, hsession, sessionDownload, hwalk, feed]
  | cons e es =>
    simp only [storager.Download, storager.Walk, hsession, sessionDownload, hwalk, feed]
    cases he : e.reader.err <;> simp

/-- Witness for C4: two delivered files, only the first one's bytes are
returned; and an empty walk without error gives the empty stream and no error. -/
theorem download_first_entry_only_witness :
    (connected (remoteServing [fileEntry "a" [104, 105], fileEntry "b" [33]])).Client.newSession
        SessionMode.modeRead 5 = none
      ∧ (connected (remoteServing [fileEntry "a" [104, 105], fileEntry "b" [33]])).Client.download
          true (Clean "/data") = ([fileEntry "a" [104, 105], fileEntry "b" [33]], none)
      ∧ ((connected (remoteServing [fileEntry "a" [104, 105], fileEntry "b" [33]])).Download "/data").1
        = ([104, 105], none)
      ∧ (connected (remoteServing [])).Client.download true (Clean "/data") = ([], none)
      ∧ ((connected (remoteServing [])).Download "/data").1 = ([], none) :=
  ⟨rfl, rfl,
    download_first_entry_only (connected (remoteServing [fileEntry "a" [104, 105], fileEntry "b" [33]]))
      "/data" [fileEntry "a" [104, 105], fileEntry "b" [33]] none rfl rfl,
    rfl,
    download_first_entry_only (connected (remoteServing [])) "/data" [] none rfl rfl⟩

/-- C5 (as stated) fails when the make-directory command fails: `Create` with
`isDir = true` then goes on to open a write-mode session and uploads. -/
theorem create_dir_fallback_counterexample :
    remoteCommandFails.output ("mkdir -p " ++ "/data/new") ≠ none
      ∧ ((connected remoteCommandFails).Create "/data/new" 493 [] true 0).2
        = [Event.shellSession, Event.output "mkdir -p /data/new",
            Event.newSession SessionMode.modeWrite 0, Event.uploadOpen "/data/",
            Event.uploadWrite ""
              { name := "new", size := 0, mode := 493, modTime := 0, isDir := true } [],
            Event.close]
      ∧ Event.newSession SessionMode.modeWrite 0
          ∈ ((connected remoteCommandFails).Create "/data/new" 493 [] true 0).2 := by
  refine ⟨by decide, by rfl, by decide⟩

/-- C5 (as amended): `Create` with `isDir = true` first runs `mkdir -p` on the
destination in a shell session. When that session opens and the command
succeeds it returns nil, having done nothing else, so no write-mode session is
opened. Otherwise it falls back to the Uploader on the destination's parent:
if the write-mode session or its upload cannot be opened it returns that
error; otherwise it uploads one entry (the destination's name, the content's
length, the mode, `isDir = true`) with the content, closes, and returns the
upload's error. A write-mode session is opened exactly when the
make-directory attempt did not succeed. -/
theorem create_dir_mkdir_then_fallback (s : storager) (destination : String) (mode : Nat)
    (content : Bytes) (now : Nat) :
    (Event.newSession SessionMode.modeWrite 0 ∉ (s.Create destination mode content true now).2
        ↔ (s.Client.shellSession = none
            ∧ s.Client.output ("mkdir -p " ++ destination) = none))
      ∧ s.Create destination mode content true now
        = if s.Client.shellSession = none
              ∧ s.Client.output ("mkdir -p " ++ destination) = none then
            (none, [Event.shellSession, Event.output ("mkdir -p " ++ destination)])
          else
            match s.Client.newSession SessionMode.modeWrite 0 with
            | some err =>
              (some err,
                (if s.Client.shellSession = none then
                    [Event.shellSession, Event.output ("mkdir -p " ++ destination)]
                  else [Event.shellSession])
                  ++ [Event.newSession SessionMode.modeWrite 0])
            | none =>
              match s.Client.uploadOpen (pathSplit destination).1 with
              | some err =>
                (some err,
                  (if s.Client.shellSession = none then
                      [Event.shellSession, Event.output ("mkdir -p " ++ destination)]
                    else [Event.shellSession])
                    ++ [Event.newSession SessionMode.modeWrite 0,
                        Event.uploadOpen (pathSplit destination).1])
              | none =>
                (s.Client.uploadWrite (pathSplit destination).1 ""
                    { name := (pathSplit destination).2, size := content.length, mode := mode,
                      modTime := now, isDir := true } content,
                  (if s.Client.shellSession = none then
                      [Event.shellSession, Event.output ("mkdir -p " ++ destination)]
                    else [Event.shellSession])
                    ++ [Event.newSession SessionMode.modeWrite 0,
                        Event.uploadOpen (pathSplit destination).1,
                        Event.uploadWrite ""
                          { name := (pathSplit destination).2, size := content.length,
                            mode := mode, modTime := now, isDir := true } content,
                        Event.close]) := by
  simp only [storager.Create, storager.Uploader]
  cases hs : s.Client.shellSession with
  | some err =>
    cases hn : s.Client.newSession SessionMode.modeWrite 0 with
    | some e2 => simp
    | none => cases hu : s.Client.uploadOpen (pathSplit destination).1 <;> simp
  | none =>
    cases ho : s.Client.output ("mkdir -p " ++ destination) with
    | none => simp
    | some err =>
      cases hn : s.Client.newSession SessionMode.modeWrite 0 with
      | some e2 => simp
      | none => cases hu : s.Client.uploadOpen (pathSplit destination).1 <;> simp

/-- C6: at the location `/data//old`, whose `path.Clean` form is `/data/old`,
`Walk` and `Exists` hand the cleaned form to the session download, while
`Delete` runs `rm -rf /data//old` and `Create` runs `mkdir -p /data//old`: the
two operations that build a shell command embed the raw input, not the
canonicalized one the claim requires. -/
theorem delete_create_embed_raw_path :
    Clean "/data//old" = "/data/old"
      ∧ ((connected (remoteServing [])).Walk "/data//old" stopAtFirst 0).2
        = [Event.newSession SessionMode.modeRead 5, Event.download true "/data/old"]
      ∧ ((connected (remoteServing [])).Exists "/data//old").2
        = [Event.newSession SessionMode.modeRead 5, Event.download false "/data/old"]
      ∧ ((connected (remoteServing [])).Delete "/data//old").2
        = [Event.shellSession, Event.output "rm -rf /data//old"]
      ∧ Event.output ("rm -rf " ++ Clean "/data//old")
          ∉ ((connected (remoteServing [])).Delete "/data//old").2
      ∧ ((connected (remoteServing [])).Create "/data//old" 493 [] true 0).2
        = [Event.shellSession, Event.output "mkdir -p /data//old"]
      ∧ Event.output ("mkdir -p " ++ Clean "/data//old")
          ∉ ((connected (remoteServing [])).Create "/data//old" 493 [] true 0).2 := by
  refine ⟨by decide, by rfl, by rfl, by rfl, by decide, by rfl, by decide⟩

/-- C9 (as stated) fails: the session opens, the download returns a non-nil
error, and `Exists` returns `(false, nil)`. -/
theorem exists_discards_download_error_counterexample :
    remoteDownloadFails.newSession SessionMode.modeRead 5 = none
      ∧ (remoteDownloadFails.download false (Clean "/data")).2 = some ⟨"connection lost"⟩
      ∧ (sessionDownload remoteDownloadFails false (Clean "/data")
          (fun (_ : Bool) (_ : Entry) => (true, false, (none : Option GoError))) false).2
          = some ⟨"connection lost"⟩
      ∧ ((connected remoteDownloadFails).Exists "/data").1 = (false, none) := by
  refine ⟨rfl, rfl, rfl, rfl⟩

/-- C9 (as amended): the error `Exists` returns is exactly the error of
opening the read session (nil when the session opens, whatever the download
returns), and when that error is non-nil the boolean is false; the boolean is
true exactly when the session opens and the download invokes the visitor,
that is, delivers at least one entry. -/
theorem exists_error_is_session_error (s : storager) (location : String) :
    (s.Exists location).1.2 = s.Client.newSession SessionMode.modeRead s.timeout
      ∧ (s.Client.newSession SessionMode.modeRead s.timeout = none
          ∨ (s.Exists location).1.1 = false)
      ∧ ((s.Exists location).1.1 = true
          ↔ (s.Client.newSession SessionMode.modeRead s.timeout = none
              ∧ (s.Client.download false (Clean location)).1 ≠ [])) := by
  cases hsession : s.Client.newSession SessionMode.modeRead s.timeout with
  | some err => simp [storager.Exists, hsession]
  | none =>
    simp only [storager.Exists, hsession, sessionDownload]
    cases hf : (s.Client.download false (Clean location)).1 with
    | nil => simp [feed]
    | cons e es => simp [feed]

/-- C10: `NewStorager` dials `address:22` when the address holds no `:` and the
address unchanged when it holds one; so the port-less IPv6 literals `::1` and
`[::1]` are dialled without any port. -/
theorem newStorager_dialled_address (dial : String → Except GoError Remote) (address : String)
    (timeout : Nat) :
    (NewStorager dial address timeout).2
        = [Event.dial (if containsColon address = true then address else address ++ ":22")]
      ∧ (NewStorager dial "host" timeout).2 = [Event.dial "host:22"]
      ∧ (NewStorager dial "host:2222" timeout).2 = [Event.dial "host:2222"]
      ∧ (NewStorager dial "::1" timeout).2 = [Event.dial "::1"]
      ∧ (NewStorager dial "[::1]" timeout).2 = [Event.dial "[::1]"] := by
  have hgen : ∀ a : String, (NewStorager dial a timeout).2
      = [Event.dial (if containsColon a = true then a else a ++ ":22")] := by
    intro a
    have hport : (":" ++ toString DefaultPort : String) = ":22" := by decide
    simp only [NewStorager, hport]
    cases hc : containsColon a <;> simp <;> split <;> rfl
  refine ⟨hgen address, ?_, ?_, ?_, ?_⟩
  · rw [hgen]; rfl
  · rw [hgen]; rfl
  · rw [hgen]; rfl
  · rw [hgen]; rfl

end scp

namespace tar

/-- The closure of `manager.Walk` around a recording visitor, fed all archive
entries, does what the specification's walk does on the accepted entries. -/
theorem feed_walkVisitor_record {σ : Type} (matcher : Matcher) (baseURL : String)
    (handler : OnVisit σ) (tail : Option GoError) (l : List Entry) (log : List Entry) (s : σ) :
    feed (walkVisitor matcher baseURL (record handler)) l tail (log, s)
      = ((log ++ (specWalk (fun s e => handler s baseURL e)
                (l.filter (fun e => matcher e.relative e.info)) tail s).1,
          (specWalk (fun s e => handler s baseURL e)
                (l.filter (fun e => matcher e.relative e.info)) tail s).2.1),
         (specWalk (fun s e => handler s baseURL e)
                (l.filter (fun e => matcher e.relative e.info)) tail s).2.2) := by
  induction l generalizing log s with
  | nil => simp [feed, specWalk]
  | cons e es ih =>
    by_cases hm : matcher e.relative e.info = true
    · have hf : (e :: es).filter (fun e => matcher e.relative e.info)
          = e :: es.filter (fun e => matcher e.relative e.info) := by simp [List.filter, hm]
      rw [hf]
      simp only [feed, specWalk, walkVisitor, record, hm]
      rcases hh : handler s baseURL e with ⟨s1, c, err⟩
      cases err with
      | some x => simp
      | none =>
        cases c with
        | false => simp
        | true => simp [ih]
    · have hf : (e :: es).filter (fun e => matcher e.relative e.info)
          = es.filter (fun e => matcher e.relative e.info) := by simp [List.filter, hm]
      rw [hf]
      simp only [feed, walkVisitor, hm]
      simpa using ih log s

/-- C7: when the base location resolves to the package's storager, the tar
manager's `Walk` invokes the caller's visitor on exactly the entries the
matcher accepts, in archive order, up to and including the first one at which
the visitor returns `shouldContinue = false` (then `Walk` returns no error) or
an error (then `Walk` returns that error unmodified); rejected entries are
never passed to the visitor and do not stop the walk. -/
theorem manager_walk_visits_accepted {σ : Type} (m : manager) (Base : String → String × String)
    (URL : String) (handler : OnVisit σ) (matcher : Option Matcher) (s0 : σ)
    (archive : String → List Entry × Option GoError)
    (hsrv : m.Storager (Base URL).1 = Except.ok (Resolved.tarStorager archive)) :
    ((m.Walk Base URL (record handler) matcher ([], s0)).1.1.1,
      (m.Walk Base URL (record handler) matcher ([], s0)).1.1.2,
      (m.Walk Base URL (record handler) matcher ([], s0)).1.2)
      = specWalk (fun s e => handler s (Base URL).1 e)
          ((archive (Base URL).2).1.filter (fun e => GetMatcher matcher e.relative e.info))
          (archive (Base URL).2).2 s0 := by
  simp only [manager.Walk, hsrv]
  rw [feed_walkVisitor_record]
  simp

/-- Witness for C7: over `a.txt`, `b/c.txt` with a matcher accepting only
entries under `b`, the visitor is invoked on `b/c.txt` alone and the walk
returns no error. -/
theorem manager_walk_visits_accepted_witness :
    managerOverArchive.Storager (sampleBase "b").1
        = Except.ok (Resolved.tarStorager (fun _ => (sampleArchive, none)))
      ∧ ((managerOverArchive.Walk sampleBase "b" (record countAll)
            (some (fun parent _ => parent == "b")) ([], 0)).1.1.1,
          (managerOverArchive.Walk sampleBase "b" (record countAll)
            (some (fun parent _ => parent == "b")) ([], 0)).1.1.2,
          (managerOverArchive.Walk sampleBase "b" (record countAll)
            (some (fun parent _ => parent == "b")) ([], 0)).1.2)
        = (sampleArchive.drop 1, 1, none) :=
  ⟨rfl,
    manager_walk_visits_accepted managerOverArchive sampleBase "b" countAll
      (some (fun parent _ => parent == "b")) 0 (fun _ => (sampleArchive, none)) rfl⟩

/-- C8: when the base location resolves to a backend that is not the package's
`*storager`, the tar manager's `Walk` returns the non-nil "unsupported storager
type" error, does nothing after the lookup (the backend's `Walk` is not
called) and never invokes the caller's visitor. -/
theorem manager_walk_type_mismatch {σ : Type} (m : manager) (Base : String → String × String)
    (URL : String) (handler : OnVisit σ) (matcher : Option Matcher) (s0 : σ) (typeName : String)
    (content : String → List Entry × Option GoError)
    (hsrv : m.Storager (Base URL).1 = Except.ok (Resolved.foreign typeName content)) :
    m.Walk Base URL handler matcher s0
        = ((s0, some ⟨"unsupported storager type: expected: *tar.storager, but had " ++ typeName⟩),
            [Event.storager (Base URL).1])
      ∧ (m.Walk Base URL handler matcher s0).1.2 ≠ none
      ∧ Event.walk (Base URL).2 ∉ (m.Walk Base URL handler matcher s0).2
      ∧ (m.Walk Base URL (record handler) matcher ([], s0)).1.1.1 = [] := by
  simp [manager.Walk, hsrv]

/-- Witness for C8: the lookup resolves to an SCP storager holding entries;
none of them is visited. -/
theorem manager_walk_type_mismatch_witness :
    managerOverForeign.Storager (sampleBase "b").1
        = Except.ok (Resolved.foreign "*scp.storager" (fun _ => (sampleArchive, none)))
      ∧ managerOverForeign.Walk sampleBase "b" countAll none 0
        = ((0, some ⟨"unsupported storager type: expected: *tar.storager, but had *scp.storager"⟩),
            [Event.storager "file:///archive.tar"])
      ∧ (managerOverForeign.Walk sampleBase "b" (record countAll) none ([], 0)).1.1.1 = [] :=
  ⟨rfl,
    (manager_walk_type_mismatch managerOverForeign sampleBase "b" countAll none 0 "*scp.storager"
      (fun _ => (sampleArchive, none)) rfl).1,
    (manager_walk_type_mismatch managerOverForeign sampleBase "b" countAll none 0 "*scp.storager"
      (fun _ => (sampleArchive, none)) rfl).2.2.2⟩

end tar

end afs
